import Mathlib

/-!
Shallow embedding of the SatAsAService repository (satellite-data orchestration
scripts) and proofs about its claims.  Remote Earth Engine calls are modelled by
explicit environments (outcome streams / traces); real time is modelled by the
clock readings the code observes.
-/

namespace SatService

/-! ### auth.py: reconnect_gee

`reconnect_gee(project_name, max_retries=5, delay=5)` runs
`for i in range(max_retries): try: authenticate; return True / except: sleep(delay)`
and returns `False` after the loop.  The outcome of the i-th authentication
attempt is supplied by the stream `outcome`.  The embedding returns the result
together with the number of attempts made and the total seconds slept. -/

def reconnectGeeFrom (outcome : Nat → Bool) (delay : Nat) : Nat → Nat → Bool × Nat × Nat
  | _, 0 => (false, 0, 0)
  | i, fuel + 1 =>
    if outcome i then (true, 1, 0)
    else
      let r := reconnectGeeFrom outcome delay (i + 1) fuel
      (r.1, r.2.1 + 1, r.2.2 + delay)

def reconnect_gee (outcome : Nat → Bool) (maxRetries delay : Nat) : Bool × Nat × Nat :=
  reconnectGeeFrom outcome delay 0 maxRetries

/-! ### gif_gen.py: download_thumbnail

The loop polls `requests.get(url)`.  Each iteration of the `while True` loop is
driven by one `DlEvent`: the HTTP outcome (a response with a status code, or a
raised exception), the value `reconnect_gee()` would return if it were called,
and the clock reading `time.time() - start_time` at that iteration's timeout
check.  `sleep(check_interval)` has no local effect beyond advancing the clock,
which is reflected in the `elapsed` readings of later events. -/

inductive HttpOutcome
  | resp (code : Nat) (content : Nat)
  | exn (msg : String)
deriving DecidableEq, Repr

structure DlEvent where
  outcome : HttpOutcome
  reconnectOk : Bool
  elapsed : ℚ
deriving DecidableEq, Repr

inductive DlResult
  | success (content : Nat)
  | timedOut
  | pending
deriving DecidableEq, Repr

/-- Mirrors the branch `elif response.status_code == 401 and not reconnect_done:`
which is the only place a re-authentication is attempted. -/
def attemptsReauth (reconnectDone : Bool) (o : HttpOutcome) : Bool :=
  match o with
  | .resp code _ => code == 401 && !reconnectDone
  | .exn _ => false

/-- One iteration of the `while True` loop of `download_thumbnail`: returns
`(some result, _)` when the loop returns, `(none, reconnectDone)` with the
updated `reconnect_done` flag when the loop sleeps and retries. -/
def dlStep (timeout : ℚ) (reconnectDone : Bool) (e : DlEvent) : Option DlResult × Bool :=
  match e.outcome with
  | .resp code content =>
    if code = 200 then (some (.success content), reconnectDone)
    else
      let rd := if attemptsReauth reconnectDone (.resp code content) then
                  (if e.reconnectOk then true else reconnectDone)
                else reconnectDone
      if e.elapsed > timeout then (some .timedOut, rd) else (none, rd)
  | .exn _ =>
    if e.elapsed > timeout then (some .timedOut, reconnectDone) else (none, reconnectDone)

/-- `download_thumbnail(url, timeout, check_interval)` over a trace of events.
`.pending` means the supplied trace ended while the loop was still polling. -/
def download_thumbnail (timeout : ℚ) : List DlEvent → Bool → DlResult
  | [], _ => .pending
  | e :: rest, rd =>
    match dlStep timeout rd e with
    | (some r, _) => r
    | (none, rd') => download_thumbnail timeout rest rd'

/-- A failed attempt: any non-200 status, or a raised exception. -/
def isFailure : HttpOutcome → Bool
  | .resp code _ => code ≠ 200
  | .exn _ => true

/-! ### point_extraction.py

`extract_point_values` wraps everything in `try/except` and returns `None` on
any exception, on an out-of-bounds point, and on a falsy (`None`/empty) result
dict; a falsy dict is modelled as the empty association list. -/

inductive Cell
  | str (s : String)
  | num (q : ℚ)
  | null
deriving DecidableEq, Repr

abbrev Values := List (String × Cell)

inductive PointOutcome
  | raises (msg : String)
  | outOfBounds
  | gotValues (v : Values)
deriving DecidableEq, Repr

def extract_point_values : PointOutcome → Option Values
  | .raises _ => none
  | .outOfBounds => none
  | .gotValues v => if v.isEmpty then none else some v

inductive RegionOutcome
  | raises (msg : String)
  | gotValues (v : Values)
deriving DecidableEq, Repr

def extract_region_values : RegionOutcome → Option Values
  | .raises _ => none
  | .gotValues v => if v.isEmpty then none else some v

/-! ### Helper lemmas about the download loop -/

theorem download_thumbnail_cons (timeout : ℚ) (e : DlEvent) (rest : List DlEvent) (rd : Bool) :
    download_thumbnail timeout (e :: rest) rd =
      match (dlStep timeout rd e).1 with
      | some r => r
      | none => download_thumbnail timeout rest (dlStep timeout rd e).2 := by
  cases hd : dlStep timeout rd e with
  | mk o rd' => cases o <;> simp [download_thumbnail, hd]

theorem dlStep_failure_none (timeout : ℚ) (rd : Bool) (e : DlEvent)
    (hf : isFailure e.outcome = true) (h : e.elapsed ≤ timeout) :
    (dlStep timeout rd e).1 = none := by
  obtain ⟨o, rok, el⟩ := e
  cases o with
  | resp code content =>
    simp only [isFailure, decide_eq_true_eq] at hf
    simp only [dlStep, if_neg hf]
    simp only [not_lt.mpr h, if_false]
  | exn msg =>
    simp only [dlStep]
    simp only [not_lt.mpr h, if_false]

theorem dlStep_failure_timedOut (timeout : ℚ) (rd : Bool) (e : DlEvent)
    (hf : isFailure e.outcome = true) (h : timeout < e.elapsed) :
    (dlStep timeout rd e).1 = some DlResult.timedOut := by
  obtain ⟨o, rok, el⟩ := e
  cases o with
  | resp code content =>
    simp only [isFailure, decide_eq_true_eq] at hf
    simp only [dlStep, if_neg hf]
    simp only [if_pos h]
  | exn msg =>
    simp only [dlStep, if_pos h]

theorem dlStep_fst_ne_pending (timeout : ℚ) (rd : Bool) (e : DlEvent) :
    (dlStep timeout rd e).1 ≠ some DlResult.pending := by
  obtain ⟨o, rok, el⟩ := e
  cases o with
  | resp code content =>
    by_cases h200 : code = 200
    · simp [dlStep, h200]
    · simp only [dlStep, if_neg h200]
      split <;> simp
  | exn msg =>
    simp only [dlStep]
    split <;> simp

theorem dlStep_none_elapsed_le (timeout : ℚ) (rd : Bool) (e : DlEvent)
    (h : (dlStep timeout rd e).1 = none) : e.elapsed ≤ timeout := by
  obtain ⟨o, rok, el⟩ := e
  by_contra hgt
  push_neg at hgt
  cases o with
  | resp code content =>
    by_cases h200 : code = 200
    · simp [dlStep, h200] at h
    · simp only [dlStep, if_neg h200, if_pos hgt] at h
      exact Option.noConfusion h
  | exn msg =>
    simp only [dlStep, if_pos hgt] at h
    exact Option.noConfusion h

/-- When every event is a failure and some event's clock reading exceeds the
timeout, the loop returns None (`timedOut`). -/
theorem download_thumbnail_allFailures (timeout : ℚ) :
    ∀ (trace : List DlEvent) (rd : Bool),
      (∀ e ∈ trace, isFailure e.outcome = true) →
      (∃ e ∈ trace, timeout < e.elapsed) →
      download_thumbnail timeout trace rd = DlResult.timedOut := by
  intro trace
  induction trace with
  | nil => intro rd _ hlate; obtain ⟨e, he, _⟩ := hlate; exact absurd he (List.not_mem_nil e)
  | cons a rest ih =>
    intro rd hfail hlate
    have hfa : isFailure a.outcome = true := hfail a (List.mem_cons_self a rest)
    by_cases hgt : timeout < a.elapsed
    · rw [download_thumbnail_cons, dlStep_failure_timedOut timeout rd a hfa hgt]
    · push_neg at hgt
      rw [download_thumbnail_cons, dlStep_failure_none timeout rd a hfa hgt]
      apply ih
      · exact fun e he => hfail e (List.mem_cons_of_mem a he)
      · obtain ⟨e, he, hel⟩ := hlate
        rcases List.mem_cons.mp he with rfl | he'
        · exact absurd hel (not_lt.mpr hgt)
        · exact ⟨e, he', hel⟩

/-- With the i-th poll happening at clock reading at least `i * ci` (the loop
sleeps `check_interval = ci` between attempts), a trace long enough that its
last reading must exceed the timeout always gets an answer: the loop performs
a bounded number of attempts. -/
theorem download_thumbnail_bounded (timeout ci : ℚ) :
    ∀ (trace : List DlEvent) (b : ℚ) (rd : Bool),
      b ≤ timeout + ci →
      (∀ i : Fin trace.length, b + (i : ℚ) * ci ≤ (trace.get i).elapsed) →
      timeout + ci < b + (trace.length : ℚ) * ci →
      download_thumbnail timeout trace rd ≠ DlResult.pending := by
  intro trace
  induction trace with
  | nil =>
    intro b rd hb _ hlen
    simp only [List.length_nil, Nat.cast_zero, zero_mul, add_zero] at hlen
    exact absurd hb (not_le.mpr hlen)
  | cons a rest ih =>
    intro b rd hb hmono hlen
    rw [download_thumbnail_cons]
    cases hd : (dlStep timeout rd a).1 with
    | some r =>
      intro hr
      have : r = DlResult.pending := hr
      exact dlStep_fst_ne_pending timeout rd a (this ▸ hd)
    | none =>
      have hale : a.elapsed ≤ timeout := dlStep_none_elapsed_le timeout rd a hd
      have hba : b ≤ a.elapsed := by
        have h0 := hmono ⟨0, by simp⟩
        simpa using h0
      apply ih (b + ci) ((dlStep timeout rd a).2)
      · linarith
      · intro i
        have h := hmono ⟨i.val + 1, by exact Nat.succ_lt_succ i.isLt⟩
        have hget : (a :: rest).get ⟨i.val + 1, by exact Nat.succ_lt_succ i.isLt⟩ = rest.get i := rfl
        rw [hget] at h
        have : b + ((i : ℚ) + 1) * ci = b + ci + (i : ℚ) * ci := by ring
        calc b + ci + (i : ℚ) * ci = b + ((i : ℚ) + 1) * ci := by ring
          _ ≤ (rest.get i).elapsed := by
              convert h using 3
              push_cast
              ring
      · have : ((a :: rest).length : ℚ) = (rest.length : ℚ) + 1 := by
          simp [List.length_cons]
        rw [this] at hlen
        linarith [hlen]

/-! ### Helper lemmas about the reconnect loop -/

theorem reconnectGeeFrom_attempts_le (outcome : Nat → Bool) (delay : Nat) :
    ∀ (fuel i : Nat), (reconnectGeeFrom outcome delay i fuel).2.1 ≤ fuel := by
  intro fuel
  induction fuel with
  | zero => intro i; simp [reconnectGeeFrom]
  | succ n ih =>
    intro i
    by_cases h : outcome i
    · simp [reconnectGeeFrom, h]
    · simp only [reconnectGeeFrom, if_neg h]
      exact Nat.succ_le_succ (ih (i + 1))

theorem reconnectGeeFrom_true_iff (outcome : Nat → Bool) (delay : Nat) :
    ∀ (fuel i : Nat),
      (reconnectGeeFrom outcome delay i fuel).1 = true ↔ ∃ j < fuel, outcome (i + j) = true := by
  intro fuel
  induction fuel with
  | zero => intro i; simp [reconnectGeeFrom]
  | succ n ih =>
    intro i
    by_cases h : outcome i
    · simp only [reconnectGeeFrom, if_pos h]
      constructor
      · intro _; exact ⟨0, Nat.succ_pos n, by simpa using h⟩
      · intro _; trivial
    · simp only [reconnectGeeFrom, if_neg h]
      rw [ih (i + 1)]
      constructor
      · rintro ⟨j, hj, hjo⟩
        exact ⟨j + 1, Nat.succ_lt_succ hj, by simpa [Nat.add_comm, Nat.add_left_comm] using hjo⟩
      · rintro ⟨j, hj, hjo⟩
        cases j with
        | zero => simp only [Nat.add_zero] at hjo; exact absurd hjo (by simpa using h)
        | succ k =>
          exact ⟨k, Nat.lt_of_succ_lt_succ hj, by simpa [Nat.add_comm, Nat.add_left_comm] using hjo⟩

theorem reconnectGeeFrom_allFail (outcome : Nat → Bool) (delay : Nat) :
    ∀ (fuel i : Nat), (∀ j < fuel, outcome (i + j) = false) →
      reconnectGeeFrom outcome delay i fuel = (false, fuel, fuel * delay) := by
  intro fuel
  induction fuel with
  | zero => intro i _; simp [reconnectGeeFrom]
  | succ n ih =>
    intro i hall
    have h0 : outcome i = false := by simpa using hall 0 (Nat.succ_pos n)
    simp only [reconnectGeeFrom, h0, Bool.false_eq_true, if_false]
    rw [ih (i + 1) (fun j hj => by
      simpa [Nat.add_comm, Nat.add_left_comm] using hall (j + 1) (Nat.succ_lt_succ hj))]
    simp [Nat.succ_mul, Nat.add_comm]

theorem reconnectGeeFrom_firstSuccess (outcome : Nat → Bool) (delay : Nat) :
    ∀ (fuel i k : Nat), k < fuel → outcome (i + k) = true →
      (∀ j < k, outcome (i + j) = false) →
      reconnectGeeFrom outcome delay i fuel = (true, k + 1, k * delay) := by
  intro fuel
  induction fuel with
  | zero => intro i k hk; exact absurd hk (Nat.not_lt_zero k)
  | succ n ih =>
    intro i k hk hks hkf
    cases k with
    | zero =>
      simp only [Nat.add_zero] at hks
      simp [reconnectGeeFrom, hks]
    | succ m =>
      have h0 : outcome i = false := by simpa using hkf 0 (Nat.succ_pos m)
      simp only [reconnectGeeFrom, h0, Bool.false_eq_true, if_false]
      rw [ih (i + 1) m (Nat.lt_of_succ_lt_succ hk)
        (by simpa [Nat.add_comm, Nat.add_left_comm] using hks)
        (fun j hj => by
          simpa [Nat.add_comm, Nat.add_left_comm] using hkf (j + 1) (Nat.succ_lt_succ hj))]
      simp [Nat.succ_mul, Nat.add_comm]

/-! ### Claim theorems C1 - C3 -/

/-- C1 (counterexample): the failure classes are not treated identically in
`download_thumbnail`.  With the same pre-state, a 401 response attempts
re-authentication (flipping `reconnect_done` when the reconnect succeeds), while
a 500 response and a raised exception do not; so the uniform
re-authenticate-and-retry recovery asserted by the claim is false. -/
theorem C1_counterexample :
    dlStep 50 false ⟨HttpOutcome.resp 401 0, true, 10⟩ = (none, true) ∧
    dlStep 50 false ⟨HttpOutcome.resp 500 0, true, 10⟩ = (none, false) ∧
    dlStep 50 false ⟨HttpOutcome.exn "boom", true, 10⟩ = (none, false) ∧
    attemptsReauth false (HttpOutcome.resp 401 0) = true ∧
    attemptsReauth false (HttpOutcome.resp 500 0) = false ∧
    attemptsReauth false (HttpOutcome.exn "boom") = false := by
  refine ⟨?_, ?_, ?_, by decide, by decide, by decide⟩ <;> rfl

/-- C1 (amended): every failure class of `download_thumbnail` (non-200 status
or exception) leads to the same retry behaviour — sleep and retry the same
request until the timeout elapses — but re-authentication is attempted only for
a 401 response and only while no reconnect has succeeded; other statuses and
exceptions are merely printed. -/
theorem C1_retry_uniform_reauth_only_first_401 (timeout : ℚ) (e : DlEvent)
    (rest : List DlEvent) (rd : Bool) (hf : isFailure e.outcome = true) :
    (e.elapsed ≤ timeout →
      download_thumbnail timeout (e :: rest) rd =
        download_thumbnail timeout rest (dlStep timeout rd e).2) ∧
    (timeout < e.elapsed → download_thumbnail timeout (e :: rest) rd = DlResult.timedOut) ∧
    (attemptsReauth rd e.outcome = true ↔
      (∃ c, e.outcome = HttpOutcome.resp 401 c) ∧ rd = false) := by
  refine ⟨?_, ?_, ?_⟩
  · intro hle
    rw [download_thumbnail_cons, dlStep_failure_none timeout rd e hf hle]
  · intro hgt
    rw [download_thumbnail_cons, dlStep_failure_timedOut timeout rd e hf hgt]
  · obtain ⟨o, rok, el⟩ := e
    cases o with
    | resp code content =>
      simp only [attemptsReauth, Bool.and_eq_true, beq_iff_eq, Bool.not_eq_true']
      constructor
      · rintro ⟨rfl, hr⟩; exact ⟨⟨content, rfl⟩, hr⟩
      · rintro ⟨⟨c, hc⟩, hr⟩
        cases hc
        exact ⟨rfl, hr⟩
    | exn msg =>
      simp only [attemptsReauth]
      constructor
      · intro h; exact absurd h (by simp)
      · rintro ⟨⟨c, hc⟩, _⟩; cases hc

theorem C1_retry_uniform_witness :
    isFailure (HttpOutcome.resp 500 0) = true ∧
    ((10 : ℚ) ≤ 50 ∧
      download_thumbnail 50 [⟨HttpOutcome.resp 500 0, true, 10⟩] false =
        download_thumbnail 50 [] (dlStep 50 false ⟨HttpOutcome.resp 500 0, true, 10⟩).2) :=
  ⟨by decide, by decide,
    (C1_retry_uniform_reauth_only_first_401 50 ⟨HttpOutcome.resp 500 0, true, 10⟩ [] false
      (by decide)).1 (by decide)⟩

/-- C2: once retries are exhausted the operations return None and never raise:
if every poll of `download_thumbnail` fails (bad status or exception) and some
poll happens after the timeout, the loop returns None; and
`extract_point_values` / `extract_region_values` return None on any exception,
on an out-of-bounds point, and on a missing (falsy) result dict. -/
theorem C2_exhausted_retries_yield_none (timeout : ℚ) (trace : List DlEvent) (rd : Bool)
    (hfail : ∀ e ∈ trace, isFailure e.outcome = true)
    (hlate : ∃ e ∈ trace, timeout < e.elapsed) :
    download_thumbnail timeout trace rd = DlResult.timedOut ∧
    (∀ msg, extract_point_values (PointOutcome.raises msg) = none) ∧
    extract_point_values PointOutcome.outOfBounds = none ∧
    extract_point_values (PointOutcome.gotValues []) = none ∧
    (∀ msg, extract_region_values (RegionOutcome.raises msg) = none) ∧
    extract_region_values (RegionOutcome.gotValues []) = none := by
  refine ⟨download_thumbnail_allFailures timeout trace rd hfail hlate, ?_, rfl, rfl, ?_, rfl⟩
  · intro msg; rfl
  · intro msg; rfl

theorem C2_exhausted_retries_witness :
    (∀ e ∈ [(⟨HttpOutcome.exn "net", false, 30⟩ : DlEvent)], isFailure e.outcome = true) ∧
    (∃ e ∈ [(⟨HttpOutcome.exn "net", false, 30⟩ : DlEvent)], (20 : ℚ) < e.elapsed) ∧
    download_thumbnail 20 [⟨HttpOutcome.exn "net", false, 30⟩] false = DlResult.timedOut :=
  ⟨by decide, ⟨⟨HttpOutcome.exn "net", false, 30⟩, by simp, by decide⟩,
    (C2_exhausted_retries_yield_none 20 [⟨HttpOutcome.exn "net", false, 30⟩] false
      (by decide) ⟨⟨HttpOutcome.exn "net", false, 30⟩, by simp, by decide⟩).1⟩

/-- C3: `reconnect_gee` makes at most `max_retries` attempts, sleeping `delay`
seconds after each failed attempt, returns True as soon as an attempt succeeds
(after `k` failures: `k+1` attempts and `k*delay` seconds slept) and False after
all `max_retries` attempts fail (having slept `max_retries*delay` seconds); and
the polling loop of `download_thumbnail`, whose i-th poll happens at clock
reading at least `i * check_interval`, terminates within any trace of length
exceeding `timeout / check_interval + 1`. -/
theorem C3_bounded_retry_loops (outcome : Nat → Bool) (maxRetries delay : Nat)
    (timeout ci : ℚ) (trace : List DlEvent) (rd : Bool)
    (hto : 0 ≤ timeout) (hci : 0 < ci)
    (hsleep : ∀ i : Fin trace.length, (i : ℚ) * ci ≤ (trace.get i).elapsed)
    (hlen : timeout + ci < (trace.length : ℚ) * ci) :
    (reconnect_gee outcome maxRetries delay).2.1 ≤ maxRetries ∧
    ((reconnect_gee outcome maxRetries delay).1 = true ↔
      ∃ j < maxRetries, outcome j = true) ∧
    ((∀ j < maxRetries, outcome j = false) →
      reconnect_gee outcome maxRetries delay = (false, maxRetries, maxRetries * delay)) ∧
    (∀ k < maxRetries, outcome k = true → (∀ j < k, outcome j = false) →
      reconnect_gee outcome maxRetries delay = (true, k + 1, k * delay)) ∧
    download_thumbnail timeout trace rd ≠ DlResult.pending := by
  refine ⟨reconnectGeeFrom_attempts_le outcome delay maxRetries 0, ?_, ?_, ?_, ?_⟩
  · simpa using reconnectGeeFrom_true_iff outcome delay maxRetries 0
  · intro hall
    exact reconnectGeeFrom_allFail outcome delay maxRetries 0 (by simpa using hall)
  · intro k hk hks hkf
    exact reconnectGeeFrom_firstSuccess outcome delay maxRetries 0 k hk (by simpa using hks)
      (by simpa using hkf)
  · apply download_thumbnail_bounded timeout ci trace 0 rd (by linarith)
    · simpa using hsleep
    · simpa using hlen

theorem C3_bounded_retry_witness :
    ((0 : ℚ) ≤ 1 ∧ (0 : ℚ) < 1) ∧
    (reconnect_gee (fun i => decide (i = 1)) 5 5).2.1 ≤ 5 ∧
    download_thumbnail 1
      [⟨HttpOutcome.exn "a", false, 0⟩, ⟨HttpOutcome.exn "b", false, 1⟩,
       ⟨HttpOutcome.exn "c", false, 2⟩] false ≠ DlResult.pending := by
  have h := C3_bounded_retry_loops (fun i => decide (i = 1)) 5 5 1 1
    [⟨HttpOutcome.exn "a", false, 0⟩, ⟨HttpOutcome.exn "b", false, 1⟩,
     ⟨HttpOutcome.exn "c", false, 2⟩] false (by norm_num) (by norm_num)
    (by intro i; fin_cases i <;> norm_num) (by norm_num)
  exact ⟨⟨by norm_num, by norm_num⟩, h.1, h.2.2.2.2⟩

/-! ### time_series_extraction.py: extract_time_series and save_to_csv

Dates are abstracted to day numbers (`ℤ`); `strftime("%Y-%m-%d")` on a week
start is modelled by `dayStr`.  The remote Earth Engine results for each
(week, location) pair are supplied by a `TsEnv`.  The body of the `while` loop
is one `tsMainStep`; the background timer thread's wakeups are `tsTimerStep`s,
and a `List TsEvent` schedule interleaves the two so that the incidental-thread
claim can be stated over all interleavings. -/

def dayStr (d : ℤ) : String := toString d

/-- Python `dict.get(band, None)` on a result dict. -/
def pyGet (v : Values) (k : String) : Cell :=
  match v.lookup k with
  | some c => c
  | none => Cell.null

structure TsParams where
  locations : List (ℚ × ℚ)
  bands : List String
  datasetName : String
  timeInterval : Nat
  startDay : ℤ
  endDay : ℤ

structure TsEnv where
  pointOutcome : ℤ → ℚ × ℚ → PointOutcome
  regionOutcome : ℤ → ℚ × ℚ → RegionOutcome
  numImages : ℤ → Nat

/-- The row dict built for one location and one week: `Date`, `Latitude`,
`Longitude`, then for each band the point value, and (only for the
`"Sentinel-2"` dataset) the `<band>_region` value right after it — matching
Python dict insertion order. -/
def mkRow (dateStr : String) (lat lon : ℚ) (bands : List String)
    (values : Values) (regionValues : Option Values) (datasetName : String) : Values :=
  [("Date", Cell.str dateStr), ("Latitude", Cell.num lat), ("Longitude", Cell.num lon)]
    ++ bands.flatMap (fun band =>
      if datasetName = "Sentinel-2" then
        [(band, pyGet values band),
         (band ++ "_region",
          match regionValues with
          | some rv => pyGet rv band
          | none => Cell.null)]
      else [(band, pyGet values band)])

/-- The rows appended for one week: one per location whose point extraction
returned a truthy dict (`if values:`). -/
def weekRows (env : TsEnv) (p : TsParams) (start : ℤ) : List Values :=
  p.locations.flatMap (fun loc =>
    match extract_point_values (env.pointOutcome start loc) with
    | some v =>
      [mkRow (dayStr start) loc.1 loc.2 p.bands v
        (extract_region_values (env.regionOutcome start loc)) p.datasetName]
    | none => [])

structure TsState where
  rows : List Values
  start : ℤ
  processedIntervals : Nat
  progress : ℚ
  numImages : Nat
  elapsedTime : ℚ
  output : List String

/-- The fields of the shared state that the main loop reads or writes; the
timer thread must leave all of these unchanged. -/
def mainView (s : TsState) : List Values × ℤ × Nat × ℚ × Nat :=
  (s.rows, s.start, s.processedIntervals, s.progress, s.numImages)

/-- One iteration of the `while start <= end` loop (a no-op once the loop
condition fails). -/
def tsMainStep (env : TsEnv) (p : TsParams) (totalIntervals : Nat) (s : TsState) : TsState :=
  if s.start ≤ p.endDay then
    { s with
      rows := s.rows ++ weekRows env p s.start,
      numImages := env.numImages s.start,
      processedIntervals := s.processedIntervals + 1,
      progress := (((s.processedIntervals : ℚ) + 1) / (totalIntervals : ℚ)) * 100,
      start := s.start + (p.timeInterval : ℤ) }
  else s

/-- The progress line printed by `update_timer`, built from exactly the state
the timer thread reads. -/
def timerLine (datasetName : String) (progress : ℚ) (numImages : Nat) (elapsed : ℚ) : String :=
  "[" ++ datasetName ++ "] Processing time-series: " ++ toString progress
    ++ "% complete | Number of images for this week: " ++ toString numImages
    ++ " | Time elapsed: " ++ toString elapsed

/-- One wakeup of the `update_timer` thread at clock reading `clock`: it writes
`elapsed_time` and a console line, and reads nothing else. -/
def tsTimerStep (datasetName : String) (clock : ℚ) (s : TsState) : TsState :=
  { s with
    elapsedTime := clock,
    output := s.output ++ [timerLine datasetName s.progress s.numImages clock] }

inductive TsEvent
  | mainIter
  | timerTick (clock : ℚ)

def TsEvent.isMain : TsEvent → Bool
  | .mainIter => true
  | .timerTick _ => false

def tsRun (env : TsEnv) (p : TsParams) (totalIntervals : Nat) :
    List TsEvent → TsState → TsState
  | [], s => s
  | .mainIter :: rest, s => tsRun env p totalIntervals rest (tsMainStep env p totalIntervals s)
  | .timerTick t :: rest, s => tsRun env p totalIntervals rest (tsTimerStep p.datasetName t s)

def tsInit (startDay : ℤ) : TsState :=
  { rows := [], start := startDay, processedIntervals := 0, progress := 0,
    numImages := 0, elapsedTime := 0, output := [] }

/-- `total_intervals = (end - start).days // time_interval + 1`; it also bounds
the number of iterations the `while` loop performs. -/
def numIntervals (p : TsParams) : Nat :=
  (p.endDay - p.startDay).toNat / p.timeInterval + 1

/-- `extract_time_series`: the rows returned after running all loop iterations
(with no timer interleavings; the timer-insensitivity theorem relates this to
every schedule). -/
def extract_time_series (env : TsEnv) (p : TsParams) : List Values :=
  (tsRun env p (numIntervals p)
    (List.replicate (numIntervals p) TsEvent.mainIter) (tsInit p.startDay)).rows

/-- Keys of a row dict, in insertion order. -/
def rowKeys (v : Values) : List String := v.map Prod.fst

/-- The column set every produced row has. -/
def canonicalKeys (bands : List String) (datasetName : String) : List String :=
  ["Date", "Latitude", "Longitude"]
    ++ bands.flatMap (fun b =>
      if datasetName = "Sentinel-2" then [b, b ++ "_region"] else [b])

/-- `csv.DictWriter.writerow` with fieldnames `fieldnames`: raises `ValueError`
on a row containing a key not in `fieldnames`, otherwise writes one cell per
field (missing keys fall back to the `None` restval). -/
def writeRow (fieldnames : List String) (r : Values) : Except String (List Cell) :=
  if r.all (fun kv => fieldnames.contains kv.1) then
    .ok (fieldnames.map (fun k => pyGet r k))
  else
    .error "ValueError: dict contains fields not in fieldnames"

/-- `save_to_csv`: prints and writes nothing for empty data (`none`); otherwise
the header is the key list of the first data row and each row is written
against that header. -/
def save_to_csv (data : List Values) : Option (List String × List (Except String (List Cell))) :=
  match data with
  | [] => none
  | first :: _ => some (rowKeys first, data.map (writeRow (rowKeys first)))

/-! ### Helper lemmas about extract_time_series -/

theorem rowKeys_mkRow (dateStr : String) (lat lon : ℚ) (bands : List String)
    (values : Values) (rv : Option Values) (ds : String) :
    rowKeys (mkRow dateStr lat lon bands values rv ds) = canonicalKeys bands ds := by
  simp only [rowKeys, mkRow, canonicalKeys, List.map_append, List.map_flatMap]
  congr 1
  apply List.flatMap_congr
  intro b _
  by_cases h : ds = "Sentinel-2" <;> simp [h]

theorem mem_weekRows_keys (env : TsEnv) (p : TsParams) (start : ℤ) (r : Values)
    (hr : r ∈ weekRows env p start) :
    rowKeys r = canonicalKeys p.bands p.datasetName := by
  obtain ⟨loc, _, hmem⟩ := List.mem_flatMap.mp hr
  revert hmem
  cases extract_point_values (env.pointOutcome start loc) with
  | none => intro hmem; exact absurd hmem (List.not_mem_nil r)
  | some v =>
    intro hmem
    have : r = mkRow (dayStr start) loc.1 loc.2 p.bands v
        (extract_region_values (env.regionOutcome start loc)) p.datasetName := by
      simpa using hmem
    rw [this, rowKeys_mkRow]

theorem tsRun_rows_keys (env : TsEnv) (p : TsParams) (n : Nat) :
    ∀ (sched : List TsEvent) (s : TsState) (r : Values),
      r ∈ (tsRun env p n sched s).rows →
      r ∈ s.rows ∨ rowKeys r = canonicalKeys p.bands p.datasetName := by
  intro sched
  induction sched with
  | nil => intro s r hr; exact Or.inl hr
  | cons ev rest ih =>
    intro s r hr
    cases ev with
    | mainIter =>
      rcases ih (tsMainStep env p n s) r hr with hin | hk
      · by_cases hc : s.start ≤ p.endDay
        · simp only [tsMainStep, if_pos hc] at hin
          rcases List.mem_append.mp hin with h | h
          · exact Or.inl h
          · exact Or.inr (mem_weekRows_keys env p s.start r h)
        · simp only [tsMainStep, if_neg hc] at hin
          exact Or.inl hin
      · exact Or.inr hk
    | timerTick t =>
      rcases ih (tsTimerStep p.datasetName t s) r hr with hin | hk
      · exact Or.inl hin
      · exact Or.inr hk

theorem mem_extract_time_series_keys (env : TsEnv) (p : TsParams) (r : Values)
    (hr : r ∈ extract_time_series env p) :
    rowKeys r = canonicalKeys p.bands p.datasetName := by
  rcases tsRun_rows_keys env p (numIntervals p)
      (List.replicate (numIntervals p) TsEvent.mainIter) (tsInit p.startDay) r hr with h | h
  · exact absurd h (List.not_mem_nil r)
  · exact h

theorem mainView_tsMainStep (env : TsEnv) (p : TsParams) (n : Nat) (s₁ s₂ : TsState)
    (h : mainView s₁ = mainView s₂) :
    mainView (tsMainStep env p n s₁) = mainView (tsMainStep env p n s₂) := by
  obtain ⟨r₁, st₁, pi₁, pr₁, ni₁, e₁, o₁⟩ := s₁
  obtain ⟨r₂, st₂, pi₂, pr₂, ni₂, e₂, o₂⟩ := s₂
  simp only [mainView, Prod.mk.injEq] at h
  obtain ⟨hr, hst, hpi, hpr, hni⟩ := h
  subst hr; subst hst; subst hpi; subst hpr; subst hni
  simp only [tsMainStep, mainView]
  split <;> rfl

theorem tsRun_filter_ticks (env : TsEnv) (p : TsParams) (n : Nat) :
    ∀ (sched : List TsEvent) (s₁ s₂ : TsState), mainView s₁ = mainView s₂ →
      mainView (tsRun env p n sched s₁) =
        mainView (tsRun env p n (sched.filter TsEvent.isMain) s₂) := by
  intro sched
  induction sched with
  | nil => intro s₁ s₂ h; exact h
  | cons ev rest ih =>
    intro s₁ s₂ h
    cases ev with
    | mainIter =>
      simp only [List.filter_cons, TsEvent.isMain, if_pos rfl, tsRun]
      exact ih _ _ (mainView_tsMainStep env p n s₁ s₂ h)
    | timerTick t =>
      have hfil : (TsEvent.timerTick t :: rest).filter TsEvent.isMain =
          rest.filter TsEvent.isMain := by
        simp [List.filter_cons, TsEvent.isMain]
      rw [hfil]
      simp only [tsRun]
      apply ih
      rw [← h]
      rfl

/-! ### Claim theorems C4, C5, C7 -/

/-- C5: within one call of `extract_time_series`, every appended row dict has
exactly the same keys — `Date`, `Latitude`, `Longitude`, one key per band, plus
one `<band>_region` key per band exactly when the dataset is `"Sentinel-2"` —
regardless of what the point/region extraction returned, so a `DictWriter`
whose fieldnames come from the first row accepts every row. -/
theorem C5_rows_share_column_set (env : TsEnv) (p : TsParams) (r₁ r₂ : Values)
    (h₁ : r₁ ∈ extract_time_series env p) (h₂ : r₂ ∈ extract_time_series env p) :
    rowKeys r₁ = canonicalKeys p.bands p.datasetName ∧
    rowKeys r₁ = rowKeys r₂ ∧
    (p.datasetName = "Sentinel-2" →
      rowKeys r₁ = ["Date", "Latitude", "Longitude"]
        ++ p.bands.flatMap (fun b => [b, b ++ "_region"])) ∧
    (p.datasetName ≠ "Sentinel-2" →
      rowKeys r₁ = ["Date", "Latitude", "Longitude"] ++ p.bands) ∧
    (∀ r ∈ extract_time_series env p,
      writeRow (rowKeys r₁) r = .ok ((rowKeys r₁).map (pyGet r))) := by
  have hk₁ := mem_extract_time_series_keys env p r₁ h₁
  have hk₂ := mem_extract_time_series_keys env p r₂ h₂
  refine ⟨hk₁, hk₁.trans hk₂.symm, ?_, ?_, ?_⟩
  · intro hds
    rw [hk₁, canonicalKeys]
    congr 1
    apply List.flatMap_congr
    intro b _
    rw [if_pos hds]
  · intro hds
    rw [hk₁, canonicalKeys]
    congr 1
    simp only [if_neg hds]
    exact List.flatMap_singleton' p.bands
  · intro r hr
    have hkr := mem_extract_time_series_keys env p r hr
    have hall : r.all (fun kv => (rowKeys r₁).contains kv.1) = true := by
      rw [List.all_eq_true]
      intro kv hkv
      have : kv.1 ∈ rowKeys r := List.mem_map_of_mem Prod.fst hkv
      rw [hkr, ← hk₁] at this
      exact List.elem_eq_true_of_mem this
    rw [writeRow, if_pos hall]

theorem C5_rows_share_column_set_witness :
    (mkRow (dayStr 0) 1 2 ["NDVI"] [("NDVI", Cell.num 1)] none "Sentinel-2" ∈
      extract_time_series
        ⟨fun _ _ => PointOutcome.gotValues [("NDVI", Cell.num 1)],
         fun _ _ => RegionOutcome.raises "err", fun _ => 0⟩
        ⟨[(1, 2)], ["NDVI"], "Sentinel-2", 7, 0, 0⟩) ∧
    rowKeys (mkRow (dayStr 0) 1 2 ["NDVI"] [("NDVI", Cell.num 1)] none "Sentinel-2") =
      canonicalKeys ["NDVI"] "Sentinel-2" := by
  constructor
  · simp [extract_time_series, numIntervals, tsRun, tsInit, tsMainStep, weekRows,
      extract_point_values, extract_region_values]
  · exact (C5_rows_share_column_set
      ⟨fun _ _ => PointOutcome.gotValues [("NDVI", Cell.num 1)],
       fun _ _ => RegionOutcome.raises "err", fun _ => 0⟩
      ⟨[(1, 2)], ["NDVI"], "Sentinel-2", 7, 0, 0⟩
      (mkRow (dayStr 0) 1 2 ["NDVI"] [("NDVI", Cell.num 1)] none "Sentinel-2")
      (mkRow (dayStr 0) 1 2 ["NDVI"] [("NDVI", Cell.num 1)] none "Sentinel-2")
      (by simp [extract_time_series, numIntervals, tsRun, tsInit, tsMainStep, weekRows,
        extract_point_values, extract_region_values])
      (by simp [extract_time_series, numIntervals, tsRun, tsInit, tsMainStep, weekRows,
        extract_point_values, extract_region_values])).1

/-- C4: `save_to_csv` on the rows of `extract_time_series` produces a flat
table headed by the key list of the first data row, which is always `Date`,
`Latitude`, `Longitude` followed by the per-band columns (with a
`<band>_region` column per band exactly for the `"Sentinel-2"` dataset). -/
theorem C4_csv_header_schema (env : TsEnv) (p : TsParams)
    (first : Values) (rest : List Values)
    (hdata : extract_time_series env p = first :: rest) :
    (save_to_csv (extract_time_series env p)).map Prod.fst = some (rowKeys first) ∧
    rowKeys first = canonicalKeys p.bands p.datasetName ∧
    canonicalKeys p.bands "Sentinel-2" =
      ["Date", "Latitude", "Longitude"] ++ p.bands.flatMap (fun b => [b, b ++ "_region"]) ∧
    (p.datasetName ≠ "Sentinel-2" →
      canonicalKeys p.bands p.datasetName = ["Date", "Latitude", "Longitude"] ++ p.bands) := by
  refine ⟨?_, ?_, ?_, ?_⟩
  · rw [hdata]; rfl
  · exact mem_extract_time_series_keys env p first (by rw [hdata]; exact List.mem_cons_self first rest)
  · simp [canonicalKeys]
  · intro hds
    rw [canonicalKeys]
    congr 1
    simp only [if_neg hds]
    exact List.flatMap_singleton' p.bands

theorem C4_csv_header_schema_witness :
    (extract_time_series
        ⟨fun _ _ => PointOutcome.gotValues [("NDVI", Cell.num 1)],
         fun _ _ => RegionOutcome.raises "err", fun _ => 0⟩
        ⟨[(1, 2)], ["NDVI"], "Sentinel-2", 7, 0, 0⟩ =
      [mkRow (dayStr 0) 1 2 ["NDVI"] [("NDVI", Cell.num 1)]
        none "Sentinel-2"]) ∧
    (save_to_csv (extract_time_series
        ⟨fun _ _ => PointOutcome.gotValues [("NDVI", Cell.num 1)],
         fun _ _ => RegionOutcome.raises "err", fun _ => 0⟩
        ⟨[(1, 2)], ["NDVI"], "Sentinel-2", 7, 0, 0⟩)).map Prod.fst =
      some (rowKeys (mkRow (dayStr 0) 1 2 ["NDVI"] [("NDVI", Cell.num 1)]
        none "Sentinel-2")) := by
  have hdata : extract_time_series
      ⟨fun _ _ => PointOutcome.gotValues [("NDVI", Cell.num 1)],
       fun _ _ => RegionOutcome.raises "err", fun _ => 0⟩
      ⟨[(1, 2)], ["NDVI"], "Sentinel-2", 7, 0, 0⟩ =
      [mkRow (dayStr 0) 1 2 ["NDVI"] [("NDVI", Cell.num 1)] none "Sentinel-2"] := by
    simp [extract_time_series, numIntervals, tsRun, tsInit, tsMainStep, weekRows,
      extract_point_values, extract_region_values]
  exact ⟨hdata,
    (C4_csv_header_schema
      ⟨fun _ _ => PointOutcome.gotValues [("NDVI", Cell.num 1)],
       fun _ _ => RegionOutcome.raises "err", fun _ => 0⟩
      ⟨[(1, 2)], ["NDVI"], "Sentinel-2", 7, 0, 0⟩
      (mkRow (dayStr 0) 1 2 ["NDVI"] [("NDVI", Cell.num 1)] none "Sentinel-2") [] hdata).1⟩

/-- C7: the background timer thread is incidental.  Its wakeups only write
`elapsed_time` and a console line (they leave every field the main loop reads
or writes unchanged), and for every interleaving of timer wakeups with the main
loop's iterations the extracted row list is the one produced with no timer at
all. -/
theorem C7_timer_thread_incidental (env : TsEnv) (p : TsParams) (schedule : List TsEvent)
    (hcount : (schedule.filter TsEvent.isMain).length = numIntervals p) :
    (tsRun env p (numIntervals p) schedule (tsInit p.startDay)).rows =
      extract_time_series env p ∧
    (∀ clock s, mainView (tsTimerStep p.datasetName clock s) = mainView s) := by
  constructor
  · have hfil : schedule.filter TsEvent.isMain =
        List.replicate (numIntervals p) TsEvent.mainIter := by
      refine List.eq_replicate_iff.mpr ⟨hcount, ?_⟩
      intro ev hev
      have := List.of_mem_filter hev
      cases ev with
      | mainIter => rfl
      | timerTick t => simp [TsEvent.isMain] at this
    have h := tsRun_filter_ticks env p (numIntervals p) schedule
      (tsInit p.startDay) (tsInit p.startDay) rfl
    rw [hfil] at h
    have : (tsRun env p (numIntervals p) schedule (tsInit p.startDay)).rows =
        (mainView (tsRun env p (numIntervals p) schedule (tsInit p.startDay))).1 := rfl
    rw [this, h]
    rfl
  · intro clock s; rfl

theorem C7_timer_thread_witness :
    (([TsEvent.timerTick 5, TsEvent.mainIter, TsEvent.timerTick 11].filter
        TsEvent.isMain).length =
      numIntervals ⟨[(1, 2)], ["NDVI"], "Sentinel-2", 7, 0, 0⟩) ∧
    (tsRun
        ⟨fun _ _ => PointOutcome.gotValues [("NDVI", Cell.num 1)],
         fun _ _ => RegionOutcome.raises "err", fun _ => 0⟩
        ⟨[(1, 2)], ["NDVI"], "Sentinel-2", 7, 0, 0⟩
        (numIntervals ⟨[(1, 2)], ["NDVI"], "Sentinel-2", 7, 0, 0⟩)
        [TsEvent.timerTick 5, TsEvent.mainIter, TsEvent.timerTick 11]
        (tsInit 0)).rows =
      extract_time_series
        ⟨fun _ _ => PointOutcome.gotValues [("NDVI", Cell.num 1)],
         fun _ _ => RegionOutcome.raises "err", fun _ => 0⟩
        ⟨[(1, 2)], ["NDVI"], "Sentinel-2", 7, 0, 0⟩ :=
  ⟨by rfl,
    (C7_timer_thread_incidental
      ⟨fun _ _ => PointOutcome.gotValues [("NDVI", Cell.num 1)],
       fun _ _ => RegionOutcome.raises "err", fun _ => 0⟩
      ⟨[(1, 2)], ["NDVI"], "Sentinel-2", 7, 0, 0⟩
      [TsEvent.timerTick 5, TsEvent.mainIter, TsEvent.timerTick 11] (by rfl)).1⟩

/-! ### main.py: the interactive menu loop

The loop's state is the pair of flags `data_processed` / `series_extracted`;
`menuStep` is one iteration of the `while True` loop on a chosen option,
returning the new state and which action the iteration performed. -/

structure MenuState where
  dataProcessed : Bool
  seriesExtracted : Bool
deriving DecidableEq, Repr

inductive MenuAction
  | processData | extractError | extractSeries | plotError | plotSeries
  | mapError | mapShown | gifs | mergeMenu | runAll | exitLoop | invalid
deriving DecidableEq, Repr

def menuStep (s : MenuState) (choice : String) : MenuState × MenuAction :=
  if choice = "1" then ({ dataProcessed := true, seriesExtracted := false }, .processData)
  else if choice = "2" then
    if !s.dataProcessed then (s, .extractError)
    else ({ s with seriesExtracted := true }, .extractSeries)
  else if choice = "3" then
    if !s.seriesExtracted then (s, .plotError) else (s, .plotSeries)
  else if choice = "4" then
    if !s.dataProcessed then (s, .mapError) else (s, .mapShown)
  else if choice = "5" then (s, .gifs)
  else if choice = "6" then (s, .mergeMenu)
  else if choice = "7" then (s, .runAll)
  else if choice = "0" then (s, .exitLoop)
  else (s, .invalid)

/-- The state after a sequence of menu choices, starting from the
`data_processed = series_extracted = False` initial state.  (An `"0"` choice
leaves the state unchanged, so folding past it is harmless.) -/
def menuRun (choices : List String) : MenuState :=
  choices.foldl (fun s c => (menuStep s c).1) ⟨false, false⟩

theorem menuStep_preserves_inv (s : MenuState) (c : String)
    (h : s.seriesExtracted = true → s.dataProcessed = true) :
    (menuStep s c).1.seriesExtracted = true → (menuStep s c).1.dataProcessed = true := by
  obtain ⟨dp, se⟩ := s
  unfold menuStep
  split_ifs <;> simp_all

theorem menuRun_inv (choices : List String) :
    (menuRun choices).seriesExtracted = true → (menuRun choices).dataProcessed = true := by
  suffices h : ∀ (l : List String) (s : MenuState),
      (s.seriesExtracted = true → s.dataProcessed = true) →
      ((l.foldl (fun s c => (menuStep s c).1) s).seriesExtracted = true →
        (l.foldl (fun s c => (menuStep s c).1) s).dataProcessed = true) by
    exact h choices ⟨false, false⟩ (by simp)
  intro l
  induction l with
  | nil => intro s hs; exact hs
  | cons c rest ih =>
    intro s hs
    exact ih (menuStep s c).1 (menuStep_preserves_inv s c hs)

/-! ### Claim theorem C6 -/

/-- C6: the menu loop enforces the pipeline order.  In every reachable state,
`series_extracted` implies `data_processed`; option 2 performs the extraction
only when `data_processed` is set (which only option 1 sets); option 3 plots
only when `series_extracted` is set (which only option 2 sets); and re-running
option 1 resets `series_extracted`. -/
theorem C6_menu_pipeline_order (choices : List String) (s : MenuState)
    (hs : s = menuRun choices) (c : String) :
    (s.seriesExtracted = true → s.dataProcessed = true) ∧
    ((menuStep s c).2 = MenuAction.extractSeries → s.dataProcessed = true) ∧
    ((menuStep s c).2 = MenuAction.plotSeries → s.seriesExtracted = true) ∧
    (menuStep s "1").1.seriesExtracted = false ∧
    ((menuStep s c).1.seriesExtracted = true →
      s.seriesExtracted = true ∨ (menuStep s c).2 = MenuAction.extractSeries) ∧
    ((menuStep s c).1.dataProcessed = true →
      s.dataProcessed = true ∨ (menuStep s c).2 = MenuAction.processData) := by
  subst hs
  refine ⟨menuRun_inv choices, ?_, ?_, ?_, ?_, ?_⟩
  · obtain ⟨dp, se⟩ := menuRun choices
    unfold menuStep
    split_ifs <;> simp_all
  · obtain ⟨dp, se⟩ := menuRun choices
    unfold menuStep
    split_ifs <;> simp_all
  · simp [menuStep]
  · obtain ⟨dp, se⟩ := menuRun choices
    unfold menuStep
    split_ifs <;> simp_all
  · obtain ⟨dp, se⟩ := menuRun choices
    unfold menuStep
    split_ifs <;> simp_all

theorem C6_menu_pipeline_witness :
    (menuRun ["1", "2"] = ⟨true, true⟩) ∧
    ((menuRun ["1", "2"]).seriesExtracted = true → (menuRun ["1", "2"]).dataProcessed = true) :=
  ⟨by decide, (C6_menu_pipeline_order ["1", "2"] (menuRun ["1", "2"]) rfl "3").1⟩

/-! ### gif_gen.py: create_colorbar's interpolate_color and hex parsing

Python `int()` truncates toward zero; the colour hex strings are parsed by
`int(hexcolor[i:i+2], 16)` for `i` in `(1, 3, 5)`. -/

def pyInt (q : ℚ) : ℤ := q.num.tdiv q.den

def interpolate_color (c1 c2 : ℤ × ℤ × ℤ) (t : ℚ) : ℤ × ℤ × ℤ :=
  (pyInt ((c1.1 : ℚ) + ((c2.1 : ℚ) - (c1.1 : ℚ)) * t),
   pyInt ((c1.2.1 : ℚ) + ((c2.2.1 : ℚ) - (c1.2.1 : ℚ)) * t),
   pyInt ((c1.2.2 : ℚ) + ((c2.2.2 : ℚ) - (c1.2.2 : ℚ)) * t))

def hexDigit (c : Char) : Option Nat :=
  if '0' ≤ c ∧ c ≤ '9' then some (c.toNat - '0'.toNat)
  else if 'a' ≤ c ∧ c ≤ 'f' then some (c.toNat - 'a'.toNat + 10)
  else if 'A' ≤ c ∧ c ≤ 'F' then some (c.toNat - 'A'.toNat + 10)
  else none

/-- `int(s, 16)` on a two-character slice. -/
def hexPair (c₁ c₂ : Char) : Option Nat := do
  let d₁ ← hexDigit c₁
  let d₂ ← hexDigit c₂
  pure (16 * d₁ + d₂)

/-- `tuple(int(hexcolor[i:i+2], 16) for i in (1, 3, 5))`: parses characters
1-6 of the colour string (the leading character is skipped, not checked). -/
def hexToRgb (s : String) : Option (Nat × Nat × Nat) :=
  match s.toList with
  | _ :: r₁ :: r₂ :: g₁ :: g₂ :: b₁ :: b₂ :: _ => do
      let r ← hexPair r₁ r₂
      let g ← hexPair g₁ g₂
      let b ← hexPair b₁ b₂
      pure (r, g, b)
  | _ => none

/-- The NDMI legend ramp of `create_gif_from_urls`. -/
def ndmiLegendItems : List (ℚ × String) :=
  [(-0.8, "#800000"), (-0.24, "#ff0000"), (-0.032, "#ffff00"),
   (0.032, "#00ffff"), (0.24, "#0000ff"), (0.8, "#000080")]

/-- The ERA5 legend ramp of `create_gif_from_urls`. -/
def era5LegendItems : List (ℚ × String) :=
  [(0.0, "#ffffcc"), (0.2, "#c2e699"), (0.4, "#78c679"),
   (0.6, "#31a354"), (0.8, "#006837")]

theorem pyInt_intCast (n : ℤ) : pyInt (n : ℚ) = n := by
  simp [pyInt, Rat.num_intCast, Rat.den_intCast, Int.tdiv_one]

/-! ### Claim theorem C8 -/

/-- C8: `interpolate_color` is exact at the endpoints and on constant colours
(`t = 0` gives `c1`, `t = 1` gives `c2`, equal endpoints give that colour for
any `t` in `[0, 1]`), and each ramp hex string `#RRGGBB` parses to the triple
of its three two-hex-digit substrings read in base 16 — verified symbolically
and on every colour of the two ramps used by the GIF generator. -/
theorem C8_color_interpolation_exact :
    (∀ c1 c2 : ℤ × ℤ × ℤ, interpolate_color c1 c2 0 = c1) ∧
    (∀ c1 c2 : ℤ × ℤ × ℤ, interpolate_color c1 c2 1 = c2) ∧
    (∀ (c : ℤ × ℤ × ℤ) (t : ℚ), 0 ≤ t → t ≤ 1 → interpolate_color c c t = c) ∧
    (∀ (h c₁ c₂ c₃ c₄ c₅ c₆ : Char) (rest : List Char) (d₁ d₂ d₃ d₄ d₅ d₆ : Nat),
      hexDigit c₁ = some d₁ → hexDigit c₂ = some d₂ → hexDigit c₃ = some d₃ →
      hexDigit c₄ = some d₄ → hexDigit c₅ = some d₅ → hexDigit c₆ = some d₆ →
      hexToRgb (String.mk (h :: c₁ :: c₂ :: c₃ :: c₄ :: c₅ :: c₆ :: rest)) =
        some (16 * d₁ + d₂, 16 * d₃ + d₄, 16 * d₅ + d₆)) ∧
    ndmiLegendItems.map (fun p => hexToRgb p.2) =
      [some (128, 0, 0), some (255, 0, 0), some (255, 255, 0),
       some (0, 255, 255), some (0, 0, 255), some (0, 0, 128)] ∧
    era5LegendItems.map (fun p => hexToRgb p.2) =
      [some (255, 255, 204), some (194, 230, 153), some (120, 198, 121),
       some (49, 163, 84), some (0, 104, 55)] := by
  refine ⟨?_, ?_, ?_, ?_, by rfl, by rfl⟩
  · rintro ⟨a, b, c⟩ ⟨d, e, f⟩
    simp [interpolate_color, pyInt_intCast]
  · rintro ⟨a, b, c⟩ ⟨d, e, f⟩
    have h1 : (a : ℚ) + ((d : ℚ) - (a : ℚ)) * 1 = (d : ℚ) := by ring
    have h2 : (b : ℚ) + ((e : ℚ) - (b : ℚ)) * 1 = (e : ℚ) := by ring
    have h3 : (c : ℚ) + ((f : ℚ) - (c : ℚ)) * 1 = (f : ℚ) := by ring
    simp only [interpolate_color, h1, h2, h3, pyInt_intCast]
  · rintro ⟨a, b, c⟩ t _ _
    have h1 : (a : ℚ) + ((a : ℚ) - (a : ℚ)) * t = (a : ℚ) := by ring
    have h2 : (b : ℚ) + ((b : ℚ) - (b : ℚ)) * t = (b : ℚ) := by ring
    have h3 : (c : ℚ) + ((c : ℚ) - (c : ℚ)) * t = (c : ℚ) := by ring
    simp only [interpolate_color, h1, h2, h3, pyInt_intCast]
  · intro h c₁ c₂ c₃ c₄ c₅ c₆ rest d₁ d₂ d₃ d₄ d₅ d₆ h₁ h₂ h₃ h₄ h₅ h₆
    simp [hexToRgb, hexPair, h₁, h₂, h₃, h₄, h₅, h₆]

theorem C8_color_interpolation_witness :
    ((0 : ℚ) ≤ mkRat 1 2 ∧ (mkRat 1 2 : ℚ) ≤ 1) ∧
    interpolate_color (10, 20, 30) (10, 20, 30) (mkRat 1 2) = (10, 20, 30) :=
  ⟨⟨by norm_num, by norm_num⟩,
    C8_color_interpolation_exact.2.2.1 (10, 20, 30) (mkRat 1 2) (by norm_num) (by norm_num)⟩

/-! ### gif_gen.py merge_gifs, and its call in main.py merge_gifs_menu

Python values passed to `merge_gifs` are modelled by `Py`; GIF frames are
abstract ids supplied by the file system map `fs`.  `merge_gifs` has signature
`(gif_paths, output_path, duration=0.1)`, so calling it requires Python's
argument binding, modelled by `mergeGifsBind`: three positional arguments plus
a `duration` keyword raise `TypeError` before the body runs. -/

inductive Py
  | str (s : String)
  | num (q : ℚ)
  | pylist (xs : List Py)

/-- Python iteration: a list yields its elements, a string yields its
characters as one-character strings, a number is not iterable. -/
def pyIter : Py → Option (List Py)
  | .str s => some (s.data.map (fun c => Py.str (String.mk [c])))
  | .pylist xs => some xs
  | .num _ => none

/-- The body of `merge_gifs`: read each path with `imageio.mimread` (any
exception is caught, printed and the path skipped), concatenate the frames and
write them with `imageio.mimsave(output_path, all_frames)`. -/
def mergeGifsBody (fs : String → Option (List Nat)) (gifPaths outputPath : Py) :
    Except String (String × List Nat) :=
  match pyIter gifPaths with
  | none => .error "TypeError: object is not iterable"
  | some items =>
    let allFrames := items.flatMap (fun it =>
      match it with
      | .str p =>
        match fs p with
        | some frames => frames
        | none => []
      | _ => [])
    match outputPath with
    | .str out => .ok (out, allFrames)
    | _ => .error "TypeError: invalid output path"

/-- Python argument binding for `def merge_gifs(gif_paths, output_path,
duration=0.1)` given the positional arguments and an optional `duration`
keyword argument. -/
def mergeGifsBind (pos : List Py) (durationKw : Option Py) :
    Except String (Py × Py × Py) :=
  match pos, durationKw with
  | [g, o], none => .ok (g, o, Py.num (1 / 10))
  | [g, o], some d => .ok (g, o, d)
  | [g, o, d], none => .ok (g, o, d)
  | [_, _, _], some _ =>
    .error "TypeError: merge_gifs() got multiple values for argument duration"
  | _, _ => .error "TypeError: merge_gifs() arity mismatch"

def merge_gifs (fs : String → Option (List Nat)) (pos : List Py) (durationKw : Option Py) :
    Except String (String × List Nat) :=
  match mergeGifsBind pos durationKw with
  | .error e => .error e
  | .ok (g, o, _) => mergeGifsBody fs g o

/-- The call in `merge_gifs_menu`: three positional file names plus
`duration=10`. -/
def merge_gifs_menu (fs : String → Option (List Nat)) : Except String (String × List Nat) :=
  merge_gifs fs
    [Py.str "laguna_gallocanta_evolucion_pe_(1).gif",
     Py.str "laguna_gallocanta_evolucion_pe_(2).gif",
     Py.str "gif_unido.gif"]
    (some (Py.num 10))

/-! ### Claim theorems C9 -/

/-- C9 (counterexample): `merge_gifs_menu` never reaches the body of
`merge_gifs`: the three positional arguments already bind `duration`, so the
extra `duration=10` keyword raises `TypeError` at the call.  No binding of
`gif_paths` to `"laguna_gallocanta_evolucion_pe_(1).gif"` occurs and nothing is
written to `"laguna_gallocanta_evolucion_pe_(2).gif"`. -/
theorem C9_counterexample :
    merge_gifs_menu (fun _ => some [7]) =
      Except.error "TypeError: merge_gifs() got multiple values for argument duration" ∧
    (merge_gifs_menu (fun _ => some [7])).toOption = none := by
  exact ⟨rfl, rfl⟩

/-- C9 (amended): `merge_gifs` writes its merged output to the path bound to
its second parameter `output_path`; but the call in `merge_gifs_menu` passes
three positional strings and a `duration` keyword, so `duration` receives
multiple values and Python raises `TypeError` before the body runs — no GIF is
written and no file named `gif_unido.gif` is created. -/
theorem C9_merge_gifs_output_path (fs : String → Option (List Nat)) (g : Py)
    (out : String) (d : Py) :
    (∀ res, merge_gifs fs [g, Py.str out, d] none = Except.ok res → res.1 = out) ∧
    (∀ res, mergeGifsBody fs g (Py.str out) = Except.ok res → res.1 = out) ∧
    merge_gifs_menu fs =
      Except.error "TypeError: merge_gifs() got multiple values for argument duration" := by
  have hbody : ∀ res, mergeGifsBody fs g (Py.str out) = Except.ok res → res.1 = out := by
    intro res hres
    unfold mergeGifsBody at hres
    cases hit : pyIter g with
    | none => rw [hit] at hres; exact absurd hres (by simp)
    | some items =>
      rw [hit] at hres
      simp only [Except.ok.injEq] at hres
      rw [← hres]
  refine ⟨?_, hbody, rfl⟩
  · intro res hres
    have : merge_gifs fs [g, Py.str out, d] none = mergeGifsBody fs g (Py.str out) := rfl
    rw [this] at hres
    exact hbody res hres

theorem C9_merge_gifs_output_path_witness :
    merge_gifs (fun _ => some [7]) [Py.pylist [], Py.str "out.gif", Py.num 1] none =
      Except.ok ("out.gif", ([] : List Nat)) ∧
    ("out.gif", ([] : List Nat)).1 = "out.gif" :=
  ⟨rfl, (C9_merge_gifs_output_path (fun _ => some [7]) (Py.pylist []) "out.gif"
    (Py.num 1)).1 ("out.gif", ([] : List Nat)) rfl⟩

/-! ### time_series_extraction.py: get_monthly_composites

Dates are concrete (year, month, day) triples; `datetime` comparison is
lexicographic; `strftime('%Y-%m-%d')` zero-pads month and day to two digits.
A composite records the `filterDate(start_str, end_str)` window and the band
selection applied to the median. -/

structure MonthComposite where
  startDate : String
  endDate : String
  selected : Option String
deriving DecidableEq, Repr

def eraBand : String := "volumetric_soil_water_layer_4"

def fmt2 (n : Nat) : String := if n < 10 then "0" ++ toString n else toString n

def fmtDate (y m d : Nat) : String := toString y ++ "-" ++ fmt2 m ++ "-" ++ fmt2 d

def dateLe (a b : Nat × Nat × Nat) : Bool :=
  a.1 < b.1 ∨ (a.1 = b.1 ∧ (a.2.1 < b.2.1 ∨ (a.2.1 = b.2.1 ∧ a.2.2 ≤ b.2.2)))

/-- Start of the next month: `datetime(y+1, 1, 1)` after December, otherwise
`datetime(y, m+1, 1)`. -/
def nextMonth : Nat × Nat → Nat × Nat
  | (y, m) => if m = 12 then (y + 1, 1) else (y, m + 1)

/-- The `while current <= end_date` loop of `get_monthly_composites`, driven by
fuel (the top-level call supplies enough fuel for every iteration). -/
def monthlyLoop (index : Option String) (endYear : Nat) :
    Nat → Nat × Nat → List MonthComposite × List MonthComposite × List String
  | 0, _ => ([], [], [])
  | fuel + 1, (y, m) =>
    if dateLe (y, m, 1) (endYear, 12, 31) then
      let nm := nextMonth (y, m)
      let startStr := fmtDate y m 1
      let endStr := fmtDate nm.1 nm.2 1
      let rest := monthlyLoop index endYear fuel nm
      (⟨startStr, endStr, index⟩ :: rest.1,
       ⟨startStr, endStr, some eraBand⟩ :: rest.2.1,
       startStr :: rest.2.2)
    else ([], [], [])

def get_monthly_composites (startYear endYear : Nat) (index : Option String) :
    List MonthComposite × List MonthComposite × List String :=
  monthlyLoop index endYear (12 * (endYear + 1 - startYear)) (startYear, 1)

/-- The months the loop visits, starting at `ym`. -/
def monthSeq : Nat → Nat × Nat → List (Nat × Nat)
  | 0, _ => []
  | k + 1, ym => ym :: monthSeq k (nextMonth ym)

/-- Number of remaining iterations from month `(y, m)`. -/
def numMonths (endYear y m : Nat) : Nat :=
  if y ≤ endYear then (endYear - y) * 12 + (12 - m) + 1 else 0

theorem monthSeq_length (k : Nat) : ∀ ym, (monthSeq k ym).length = k := by
  induction k with
  | zero => intro ym; rfl
  | succ n ih => intro ym; simp [monthSeq, ih]

theorem monthlyLoop_eq (index : Option String) (endYear : Nat) :
    ∀ (count y m fuel : Nat), 1 ≤ m → m ≤ 12 →
      numMonths endYear y m = count → count ≤ fuel →
      monthlyLoop index endYear fuel (y, m) =
        ((monthSeq count (y, m)).map (fun ym =>
            ⟨fmtDate ym.1 ym.2 1, fmtDate (nextMonth ym).1 (nextMonth ym).2 1, index⟩),
         (monthSeq count (y, m)).map (fun ym =>
            (⟨fmtDate ym.1 ym.2 1, fmtDate (nextMonth ym).1 (nextMonth ym).2 1,
              some eraBand⟩ : MonthComposite)),
         (monthSeq count (y, m)).map (fun ym => fmtDate ym.1 ym.2 1)) := by
  intro count
  induction count with
  | zero =>
    intro y m fuel h1 h12 hc _
    have hy : ¬ y ≤ endYear := by
      by_contra hy
      rw [numMonths, if_pos hy] at hc
      omega
    have hguard : dateLe (y, m, 1) (endYear, 12, 31) = false := by
      simp only [dateLe, decide_eq_false_iff_not]
      push_neg
      omega
    cases fuel with
    | zero => simp [monthlyLoop, monthSeq]
    | succ f => simp [monthlyLoop, hguard, monthSeq]
  | succ c ih =>
    intro y m fuel h1 h12 hc hf
    have hy : y ≤ endYear := by
      by_contra hy
      rw [numMonths, if_neg hy] at hc
      omega
    obtain ⟨f, rfl⟩ : ∃ f, fuel = f + 1 := ⟨fuel - 1, by omega⟩
    have hguard : dateLe (y, m, 1) (endYear, 12, 31) = true := by
      simp only [dateLe, decide_eq_true_eq]
      omega
    simp only [monthlyLoop, hguard, if_true, monthSeq, List.map_cons]
    by_cases hm : m = 12
    · subst hm
      have hnm : nextMonth (y, 12) = (y + 1, 1) := by simp [nextMonth]
      rw [hnm]
      have hc' : numMonths endYear (y + 1) 1 = c := by
        rw [numMonths, if_pos hy] at hc
        rw [numMonths]
        split_ifs with hy' <;> omega
      rw [ih (y + 1) 1 f (by omega) (by omega) hc' (by omega)]
    · have hnm : nextMonth (y, m) = (y, m + 1) := by simp [nextMonth, hm]
      rw [hnm]
      have hc' : numMonths endYear y (m + 1) = c := by
        rw [numMonths, if_pos hy] at hc
        rw [numMonths, if_pos hy]
        omega
      rw [ih y (m + 1) f (by omega) (by omega) hc' (by omega)]

theorem monthSeq_get (k : Nat) :
    ∀ (y m i : Nat), 1 ≤ m → m ≤ 12 → i < k →
      (monthSeq k (y, m))[i]? = some (y + (m - 1 + i) / 12, (m - 1 + i) % 12 + 1) := by
  induction k with
  | zero => intro y m i _ _ hi; omega
  | succ n ih =>
    intro y m i h1 h12 hi
    cases i with
    | zero =>
      simp only [monthSeq, List.getElem?_cons_zero, Option.some.injEq, Prod.mk.injEq]
      constructor <;> omega
    | succ j =>
      have hstep : (monthSeq (n + 1) (y, m))[j + 1]? = (monthSeq n (nextMonth (y, m)))[j]? := by
        simp [monthSeq]
      rw [hstep]
      by_cases hm : m = 12
      · subst hm
        rw [show nextMonth (y, 12) = (y + 1, 1) by simp [nextMonth]]
        rw [ih (y + 1) 1 j (by omega) (by omega) (by omega)]
        simp only [Option.some.injEq, Prod.mk.injEq]
        constructor <;> omega
      · rw [show nextMonth (y, m) = (y, m + 1) by simp [nextMonth, hm]]
        rw [ih y (m + 1) j (by omega) (by omega) (by omega)]
        simp only [Option.some.injEq, Prod.mk.injEq]
        constructor <;> omega

/-! ### Claim theorem C10 -/

/-- C10: for `start_year <= end_year`, `get_monthly_composites` returns three
lists (Sentinel-2 composites, ERA5 composites, date strings), all of length
`12 * (end_year - start_year + 1)`; the i-th date string is the first day of
the i-th calendar month from January of `start_year`, and the i-th composite's
`filterDate` window runs from the first of that month up to (exclusively, per
Earth Engine `filterDate` semantics) the first of the next month. -/
theorem C10_monthly_composites (startYear endYear : Nat) (index : Option String)
    (h : startYear ≤ endYear) :
    (get_monthly_composites startYear endYear index).1.length =
      12 * (endYear - startYear + 1) ∧
    (get_monthly_composites startYear endYear index).2.1.length =
      12 * (endYear - startYear + 1) ∧
    (get_monthly_composites startYear endYear index).2.2.length =
      12 * (endYear - startYear + 1) ∧
    (∀ i < 12 * (endYear - startYear + 1),
      (get_monthly_composites startYear endYear index).2.2[i]? =
        some (fmtDate (startYear + i / 12) (i % 12 + 1) 1) ∧
      (get_monthly_composites startYear endYear index).1[i]? =
        some ⟨fmtDate (startYear + i / 12) (i % 12 + 1) 1,
              fmtDate (nextMonth (startYear + i / 12, i % 12 + 1)).1
                (nextMonth (startYear + i / 12, i % 12 + 1)).2 1, index⟩ ∧
      (get_monthly_composites startYear endYear index).2.1[i]? =
        some ⟨fmtDate (startYear + i / 12) (i % 12 + 1) 1,
              fmtDate (nextMonth (startYear + i / 12, i % 12 + 1)).1
                (nextMonth (startYear + i / 12, i % 12 + 1)).2 1, some eraBand⟩) := by
  have hcount : numMonths endYear startYear 1 = 12 * (endYear - startYear + 1) := by
    rw [numMonths, if_pos h]
    omega
  have hmain := monthlyLoop_eq index endYear (12 * (endYear - startYear + 1)) startYear 1
    (12 * (endYear + 1 - startYear)) (by omega) (by omega) hcount (by omega)
  rw [get_monthly_composites, hmain]
  refine ⟨by simp [monthSeq_length], by simp [monthSeq_length], by simp [monthSeq_length], ?_⟩
  intro i hi
  have hget := monthSeq_get (12 * (endYear - startYear + 1)) startYear 1 i
    (le_refl 1) (by omega) hi
  have hidx : 1 - 1 + i = i := by omega
  rw [hidx] at hget
  refine ⟨?_, ?_, ?_⟩ <;>
    simp [List.getElem?_map, hget]

theorem C10_monthly_composites_witness :
    (2024 ≤ 2024) ∧
    (get_monthly_composites 2024 2024 (some "NDMI")).2.2.length =
      12 * (2024 - 2024 + 1) :=
  ⟨le_refl 2024,
    (C10_monthly_composites 2024 2024 (some "NDMI") (le_refl 2024)).2.2.1⟩

end SatService
